import Mathlib

/-!
Verification of the frontier_exploration camera-visibility code
(`src/pc_processor.py` and `src/tests/camera_orient_optimization_3d.py`)
against its natural-language specification.

The numeric embedding uses exact rationals (`ℚ`) for the tensor scalars.
3-D points are `Vec3`, 3×3 matrices are `Mat3`, point clouds are
`List Vec3`.  The pytorch3d function `look_at_view_transform` is external
to the repository; it is abstracted as a parameter
`lookAt : ℚ → ℚ → ℚ → Mat3 × Vec3` mapping (dist, elev, azim) to the
extrinsics (R, T), exactly the shape of value the source consumes.
-/

/-- A 3-D point / vector (one column of the `(3, N)` tensors in the source). -/
structure Vec3 where
  x : ℚ
  y : ℚ
  z : ℚ
deriving DecidableEq

/-- A 3×3 matrix, row major (`m01` is row 0, column 1). -/
structure Mat3 where
  m00 : ℚ
  m01 : ℚ
  m02 : ℚ
  m10 : ℚ
  m11 : ℚ
  m12 : ℚ
  m20 : ℚ
  m21 : ℚ
  m22 : ℚ
deriving DecidableEq

def Vec3.sub (a b : Vec3) : Vec3 := ⟨a.x - b.x, a.y - b.y, a.z - b.z⟩

def Vec3.add (a b : Vec3) : Vec3 := ⟨a.x + b.x, a.y + b.y, a.z + b.z⟩

/-- Matrix–vector product (`M @ v`). -/
def Mat3.mulVec (M : Mat3) (v : Vec3) : Vec3 :=
  ⟨M.m00 * v.x + M.m01 * v.y + M.m02 * v.z,
   M.m10 * v.x + M.m11 * v.y + M.m12 * v.z,
   M.m20 * v.x + M.m21 * v.y + M.m22 * v.z⟩

/-- Matrix transpose (`torch.transpose(M, 0, 1)` / `M.T`). -/
def Mat3.transpose (M : Mat3) : Mat3 :=
  ⟨M.m00, M.m10, M.m20, M.m01, M.m11, M.m21, M.m02, M.m12, M.m22⟩

/-- Matrix–matrix product. -/
def Mat3.mulM (A B : Mat3) : Mat3 :=
  ⟨A.m00 * B.m00 + A.m01 * B.m10 + A.m02 * B.m20,
   A.m00 * B.m01 + A.m01 * B.m11 + A.m02 * B.m21,
   A.m00 * B.m02 + A.m01 * B.m12 + A.m02 * B.m22,
   A.m10 * B.m00 + A.m11 * B.m10 + A.m12 * B.m20,
   A.m10 * B.m01 + A.m11 * B.m11 + A.m12 * B.m21,
   A.m10 * B.m02 + A.m11 * B.m12 + A.m12 * B.m22,
   A.m20 * B.m00 + A.m21 * B.m10 + A.m22 * B.m20,
   A.m20 * B.m01 + A.m21 * B.m11 + A.m22 * B.m21,
   A.m20 * B.m02 + A.m21 * B.m12 + A.m22 * B.m22⟩

/-- The 3×3 identity matrix (`torch.eye(3)`). -/
def idMat3 : Mat3 := ⟨1, 0, 0, 0, 1, 0, 0, 0, 1⟩

/-- An orthonormal rotation: its transpose is a two-sided inverse. -/
def Mat3.orthonormal (R : Mat3) : Prop :=
  Mat3.mulM (Mat3.transpose R) R = idMat3 ∧ Mat3.mulM R (Mat3.transpose R) = idMat3

/-- `load_intrinsics`: the upper-left 3×3 block of the hard-coded
homogeneous intrinsics matrix `K` (the fourth row/column only pad it). -/
def load_intrinsics_K : Mat3 :=
  ⟨758.03967, 0, 621.46572,
   0, 761.62359, 756.86402,
   0, 0, 1⟩

/-- `load_intrinsics`: the image width (pixels). -/
def img_width : ℚ := 1232

/-- `load_intrinsics`: the image height (pixels). -/
def img_height : ℚ := 1616

/-- The abstract pytorch3d `look_at_view_transform`:
(dist, elev, azim) ↦ (R, T).  External library code, kept opaque. -/
def LookAt : Type := ℚ → ℚ → ℚ → Mat3 × Vec3

/-- A trivial look-at instance (identity extrinsics), used to build
concrete executions. -/
def lookAtId : LookAt := fun _ _ _ => (idMat3, ⟨0, 0, 0⟩)

/-- `Model.to_camera_frame` (and the identical inline transform in
`rewards_from_pose` / `PointsProcessor.ego_to_cam_torch`): subtract the
translation `T` from each point and apply the inverse rotation, i.e. the
transpose of `R`. -/
def to_camera_frame (verts : List Vec3) (R : Mat3) (T : Vec3) : List Vec3 :=
  verts.map (fun p => Mat3.mulVec (Mat3.transpose R) (Vec3.sub p T))

/-- The inverse of `to_camera_frame`, as the spec's round-trip property
words it: multiply by `R`, add `T`.  (Not a function of the source; it is
the spec's inverse transform.) -/
def from_camera_frame (verts : List Vec3) (R : Mat3) (T : Vec3) : List Vec3 :=
  verts.map (fun q => Vec3.add (Mat3.mulVec R q) T)

/-- `Model.get_dist_mask` (per point): camera-frame depth strictly between
`min_dist` and `max_dist`.  The same expression appears inline in
`rewards_from_pose` and in `PointsProcessor.run`. -/
def get_dist_mask (p : Vec3) (min_dist max_dist : ℚ) : Bool :=
  decide (min_dist < p.z) && decide (p.z < max_dist)

/-- The denominator of the perspective divide `pts_homo[:2] /= pts_homo[2:3]`:
the third component of `intrins @ p`. -/
def fov_divisor (intrins : Mat3) (p : Vec3) : ℚ :=
  (Mat3.mulVec intrins p).z

/-- Projected pixel column `pts_homo[0]` after the perspective divide. -/
def proj_u (intrins : Mat3) (p : Vec3) : ℚ :=
  (Mat3.mulVec intrins p).x / fov_divisor intrins p

/-- Projected pixel row `pts_homo[1]` after the perspective divide. -/
def proj_v (intrins : Mat3) (p : Vec3) : ℚ :=
  (Mat3.mulVec intrins p).y / fov_divisor intrins p

/-- `Model.get_fov_mask` / `PointsProcessor.get_only_in_img_mask`
(per point): `pts_homo = intrins @ p`, divide the first two rows by the
third, then require projected Z strictly positive and the projected pixel
coordinates strictly inside `(1, width-1) × (1, height-1)`. -/
def get_fov_mask (p : Vec3) (img_height img_width : ℚ) (intrins : Mat3) : Bool :=
  decide (0 < fov_divisor intrins p) &&
  decide (1 < proj_u intrins p) && decide (proj_u intrins p < img_width - 1) &&
  decide (1 < proj_v intrins p) && decide (proj_v intrins p < img_height - 1)

/-- `mask = torch.logical_and(dist_mask, fov_mask)`. -/
def combined_mask (p : Vec3) (min_dist max_dist img_height img_width : ℚ)
    (intrins : Mat3) : Bool :=
  get_dist_mask p min_dist max_dist && get_fov_mask p img_height img_width intrins

/-- `rewards_from_pose`: build extrinsics from the pose via the look-at
transform, move the cloud to camera frame, and count the points whose
depth mask and FOV mask are both true (`torch.sum(mask, dtype=float)`).
The Python defaults for the depth band are `min_dist=1.0, max_dist=10.0`;
callers of this definition pass the band explicitly. -/
def rewards_from_pose (lookAt : LookAt) (dist elev azim : ℚ) (verts : List Vec3)
    (min_dist max_dist : ℚ) : ℚ :=
  let RT := lookAt dist elev azim
  let verts_cam := to_camera_frame verts RT.1 RT.2
  ((verts_cam.countP fun p =>
      combined_mask p min_dist max_dist img_height img_width load_intrinsics_K : ℕ) : ℚ)

/-- The default finite-difference step `delta=0.05` of
`FrustumVisibilityEst.forward`. -/
def delta_default : ℚ := 0.05

/-- `FrustumVisibilityEst.forward`: returns the base reward together with
the context saved for backward — the three forward differences obtained by
perturbing each pose parameter by `delta` independently.  The inner calls
use `rewards_from_pose`'s default depth band `(1.0, 10.0)`. -/
def frustumVisForward (lookAt : LookAt) (dist elev azim : ℚ) (verts : List Vec3)
    (delta : ℚ) : ℚ × (ℚ × ℚ × ℚ) :=
  let rewards := rewards_from_pose lookAt dist elev azim verts 1 10
  let rewards_ddist := rewards_from_pose lookAt (dist + delta) elev azim verts 1 10 - rewards
  let rewards_delev := rewards_from_pose lookAt dist (elev + delta) azim verts 1 10 - rewards
  let rewards_dazim := rewards_from_pose lookAt dist elev (azim + delta) verts 1 10 - rewards
  (rewards, (rewards_ddist, rewards_delev, rewards_dazim))

/-- `FrustumVisibilityEst.backward`: multiply each saved forward difference
by the upstream gradient `grad_output` (the trailing `None` for `verts` is
omitted). -/
def frustumVisBackward (saved : ℚ × ℚ × ℚ) (grad_output : ℚ) : ℚ × ℚ × ℚ :=
  (grad_output * saved.1, grad_output * saved.2.1, grad_output * saved.2.2)

/-- The `Model` of `camera_orient_optimization_3d.py`: a point cloud, the
three optimizable pose scalars, and the constructor's depth-clip limits
`pc_clip_limits = [min_dist, max_dist]`. -/
structure Model where
  points : List Vec3
  dist : ℚ
  elev : ℚ
  azim : ℚ
  min_dist : ℚ
  max_dist : ℚ

/-- `self.eps = 1e-6` set by `Model.__init__` (not configurable). -/
def Model.eps : ℚ := 1e-6

/-- `Model.forward`: reward from the visibility estimator (which uses
`rewards_from_pose`'s default band `(1.0, 10.0)`), reciprocal-with-epsilon
loss, then the diagnostic visible-point set: the cloud in camera frame
filtered by the depth mask with the CONFIGURED clip limits and the FOV
mask.  Returns `(verts_filtered, loss)`. -/
def Model.forward (lookAt : LookAt) (m : Model) : List Vec3 × ℚ :=
  let rewards := (frustumVisForward lookAt m.dist m.elev m.azim m.points delta_default).1
  let loss := 1 / (rewards + Model.eps)
  let RT := lookAt m.dist m.elev m.azim
  let verts := to_camera_frame m.points RT.1 RT.2
  let mask := fun p =>
    get_dist_mask p m.min_dist m.max_dist &&
    get_fov_mask p img_height img_width load_intrinsics_K
  (verts.filter mask, loss)

/-! ### The live pipeline (`pc_processor.py`) -/

/-- `rospy.get_param(name, default)`: the startup override when one is
configured, else the default. -/
def rospy_get_param (override : Option String) (default : String) : String :=
  override.getD default

/-- The record produced by `PointsProcessor.__init__`: the two topic-name
instance fields (read from the parameter server with the constructor
arguments as defaults) and the channels actually passed to
`rospy.Subscriber` — which are the constructor ARGUMENTS `pc_topic` and
`cam_info_topic`, not the instance fields. -/
structure PointsProcessorInit where
  pc_topic : String
  cam_info_topic : String
  subscribed_pc_topic : String
  subscribed_cam_info_topic : String

/-- `PointsProcessor.__init__` restricted to its topic wiring.
`param_pointcloud_topic` / `param_cam_info_topic` model the parameter
server (`~pointcloud_topic`, `~cam_info_topic`); `pc_topic` and
`cam_info_topic` are the constructor defaults. -/
def points_processor_init (param_pointcloud_topic param_cam_info_topic : Option String)
    (pc_topic cam_info_topic : String) : PointsProcessorInit :=
  ⟨rospy_get_param param_pointcloud_topic pc_topic,
   rospy_get_param param_cam_info_topic cam_info_topic,
   pc_topic,
   cam_info_topic⟩

/-- Constructor default of `pc_topic`. -/
def default_pc_topic : String := "/output_3d_pc"

/-- Constructor default of `cam_info_topic`. -/
def default_cam_info_topic : String := "/viz/camera_0/camera_info"

/-- A `sensor_msgs/PointCloud2` message as the pipeline reads it. -/
structure PointCloud2Msg where
  frame_id : String
  points : List Vec3

/-- A `sensor_msgs/CameraInfo` message restricted to the fields the
callback reads: the frame id, image size, and the flattened intrinsics
entries `K[0]`, `K[2]`, `K[4]`, `K[5]`. -/
structure CameraInfoMsg where
  frame_id : String
  height : ℚ
  width : ℚ
  k0 : ℚ
  k2 : ℚ
  k4 : ℚ
  k5 : ℚ

/-- The mutable state of a `PointsProcessor` across callbacks. -/
structure ProcState where
  K : Mat3
  pc_frame : Option String
  cam_frame : Option String
  points : Option (List Vec3)

/-- `PointsProcessor.pc_callback`: store the frame id and the point array. -/
def pc_callback (s : ProcState) (msg : PointCloud2Msg) : ProcState :=
  ⟨s.K, some msg.frame_id, s.cam_frame, some msg.points⟩

/-- `PointsProcessor.cam_info_callback`: record the camera frame and the
intrinsics entries, then call `self.run` (the projection-and-publish step)
only when `self.pc_frame is not None`.  The boolean of the result tells
whether `run` was invoked. -/
def cam_info_callback (s : ProcState) (msg : CameraInfoMsg) : ProcState × Bool :=
  let K := Mat3.mk msg.k0 s.K.m01 msg.k2 s.K.m10 msg.k4 msg.k5 s.K.m20 s.K.m21 1
  let s : ProcState := ⟨K, s.pc_frame, some msg.frame_id, s.points⟩
  if s.pc_frame.isSome then (s, true) else (s, false)

/-! ### Theorems -/

/-- A predicate holds of at most every list element. -/
theorem countP_le_len {α : Type} (p : α → Bool) (l : List α) :
    l.countP p ≤ l.length := by
  induction l with
  | nil => simp [List.countP_nil]
  | cons a l ih =>
    rw [List.countP_cons]
    by_cases h : p a = true <;> simp [h, List.length_cons] <;> omega

/-- A pointwise-weaker predicate is counted at most as often. -/
theorem countP_le_countP {α : Type} {p q : α → Bool} (l : List α)
    (h : ∀ a ∈ l, p a = true → q a = true) : l.countP p ≤ l.countP q := by
  induction l with
  | nil => simp [List.countP_nil]
  | cons a l ih =>
    rw [List.countP_cons, List.countP_cons]
    have ha := h a (List.mem_cons_self a l)
    have hl := ih fun b hb => h b (List.mem_cons_of_mem a hb)
    by_cases hp : p a = true
    · simp [hp, ha hp]; omega
    · simp [Bool.not_eq_true] at hp
      simp [hp]
      by_cases hq : q a = true <;> simp [hq] <;> omega

/-- C1: `FrustumVisibilityEst.backward` returns, for each of the three pose
parameters (dist, elev, azim), the upstream gradient `g` times the forward
difference `reward(pose with that one parameter increased by delta) −
reward(base pose)`, the other two parameters held fixed; the step defaults
to `delta = 0.05`. -/
theorem frustumVis_backward_is_scaled_forward_difference :
    (∀ (lookAt : LookAt) (d e a : ℚ) (verts : List Vec3) (g delta : ℚ),
      frustumVisBackward (frustumVisForward lookAt d e a verts delta).2 g =
        (g * (rewards_from_pose lookAt (d + delta) e a verts 1 10 -
              rewards_from_pose lookAt d e a verts 1 10),
         g * (rewards_from_pose lookAt d (e + delta) a verts 1 10 -
              rewards_from_pose lookAt d e a verts 1 10),
         g * (rewards_from_pose lookAt d e (a + delta) verts 1 10 -
              rewards_from_pose lookAt d e a verts 1 10))) ∧
    delta_default = 0.05 := by
  exact ⟨fun lookAt d e a verts g delta => rfl, rfl⟩

/-- C2: the visibility reward is exactly the number of points whose depth
mask and FOV mask are both true (in camera frame), and it is non-negative
and bounded by the point count `N`. -/
theorem reward_counts_combined_mask (lookAt : LookAt) (d e a : ℚ)
    (verts : List Vec3) (lo hi : ℚ) :
    rewards_from_pose lookAt d e a verts lo hi =
      (((to_camera_frame verts (lookAt d e a).1 (lookAt d e a).2).countP fun p =>
          get_dist_mask p lo hi &&
          get_fov_mask p img_height img_width load_intrinsics_K : ℕ) : ℚ) ∧
    0 ≤ rewards_from_pose lookAt d e a verts lo hi ∧
    rewards_from_pose lookAt d e a verts lo hi ≤ (verts.length : ℚ) := by
  refine ⟨rfl, Nat.cast_nonneg _, ?_⟩
  have h := countP_le_len
    (fun p => combined_mask p lo hi img_height img_width load_intrinsics_K)
    (to_camera_frame verts (lookAt d e a).1 (lookAt d e a).2)
  have hlen : (to_camera_frame verts (lookAt d e a).1 (lookAt d e a).2).length
      = verts.length := List.length_map _ _
  rw [hlen] at h
  have hr : rewards_from_pose lookAt d e a verts lo hi =
      (((to_camera_frame verts (lookAt d e a).1 (lookAt d e a).2).countP fun p =>
          combined_mask p lo hi img_height img_width load_intrinsics_K : ℕ) : ℚ) := rfl
  rw [hr]
  exact_mod_cast h

/-- Unfolding of the depth mask into its two strict comparisons. -/
theorem get_dist_mask_true_iff (p : Vec3) (lo hi : ℚ) :
    get_dist_mask p lo hi = true ↔ (lo < p.z ∧ p.z < hi) := by
  simp [get_dist_mask]

/-- Unfolding of the FOV mask into its five strict comparisons. -/
theorem get_fov_mask_true_iff (p : Vec3) (h w : ℚ) (intrins : Mat3) :
    get_fov_mask p h w intrins = true ↔
      (0 < fov_divisor intrins p ∧
       1 < proj_u intrins p ∧ proj_u intrins p < w - 1 ∧
       1 < proj_v intrins p ∧ proj_v intrins p < h - 1) := by
  simp [get_fov_mask, and_assoc]

/-- C3: the combined mask is the AND of the depth and FOV masks; the depth
mask rejects a point whose depth equals exactly `min_dist` or `max_dist`;
the FOV mask rejects a point projecting to a boundary pixel column
(`x = 0` or `x = width − 1`) or boundary row, because membership requires
projected Z > 0 and projected coordinates strictly inside the image bounds
with a 1-pixel margin on each edge. -/
theorem combined_mask_strict_boundaries :
    (∀ (p : Vec3) (lo hi h w : ℚ) (intrins : Mat3),
      combined_mask p lo hi h w intrins =
        (get_dist_mask p lo hi && get_fov_mask p h w intrins)) ∧
    (∀ (p : Vec3) (lo hi : ℚ), p.z = lo ∨ p.z = hi → get_dist_mask p lo hi = false) ∧
    (∀ (p : Vec3) (h w : ℚ) (intrins : Mat3),
      proj_u intrins p = 0 ∨ proj_u intrins p = w - 1 →
        get_fov_mask p h w intrins = false) ∧
    (∀ (p : Vec3) (h w : ℚ) (intrins : Mat3),
      proj_v intrins p = 0 ∨ proj_v intrins p = h - 1 →
        get_fov_mask p h w intrins = false) ∧
    (∀ (p : Vec3) (h w : ℚ) (intrins : Mat3),
      get_fov_mask p h w intrins = true ↔
        (0 < fov_divisor intrins p ∧
         1 < proj_u intrins p ∧ proj_u intrins p < w - 1 ∧
         1 < proj_v intrins p ∧ proj_v intrins p < h - 1)) := by
  refine ⟨fun p lo hi h w intrins => rfl, ?_, ?_, ?_, fun p h w intrins =>
    get_fov_mask_true_iff p h w intrins⟩
  · intro p lo hi hz
    rw [Bool.eq_false_iff]
    intro htrue
    obtain ⟨h1, h2⟩ := (get_dist_mask_true_iff p lo hi).mp htrue
    rcases hz with hz | hz <;> rw [hz] at h1 h2 <;> linarith
  · intro p h w intrins hu
    rw [Bool.eq_false_iff]
    intro htrue
    obtain ⟨-, h1, h2, -, -⟩ := (get_fov_mask_true_iff p h w intrins).mp htrue
    rcases hu with hu | hu <;> rw [hu] at h1 h2 <;> linarith
  · intro p h w intrins hv
    rw [Bool.eq_false_iff]
    intro htrue
    obtain ⟨-, -, -, h1, h2⟩ := (get_fov_mask_true_iff p h w intrins).mp htrue
    rcases hv with hv | hv <;> rw [hv] at h1 h2 <;> linarith

/-- Concrete instance of C3: depth exactly `min_dist = 1` is rejected, and
a point projecting to pixel column 0 is rejected by the FOV mask. -/
theorem combined_mask_strict_boundaries_witness :
    get_dist_mask ⟨0, 0, 1⟩ 1 5 = false ∧
    proj_u load_intrinsics_K ⟨-(62146572 / 75803967 : ℚ), 0, 1⟩ = 0 ∧
    get_fov_mask ⟨-(62146572 / 75803967 : ℚ), 0, 1⟩ img_height img_width
      load_intrinsics_K = false := by
  have hu : proj_u load_intrinsics_K ⟨-(62146572 / 75803967 : ℚ), 0, 1⟩ = 0 := by
    norm_num [proj_u, fov_divisor, Mat3.mulVec, load_intrinsics_K]
  exact ⟨combined_mask_strict_boundaries.2.1 _ 1 5 (Or.inl rfl), hu,
    combined_mask_strict_boundaries.2.2.1 _ img_height img_width _ (Or.inl hu)⟩

/-- C5: the perspective divide inside the FOV mask is unguarded: a valid
input can put a point at camera-frame depth exactly 0, and for such a point
the denominator `pts_homo[2]` of `pts_homo[:2] /= pts_homo[2:3]` is exactly
zero (the source applies the divide to every point, before and independent
of the depth mask; over floats the quotient is undefined — here, over exact
rationals, the division is total, and the zero denominator is what this
theorem exhibits). -/
theorem fov_divide_by_zero_reachable :
    ∃ (verts : List Vec3) (d e a : ℚ) (p : Vec3),
      p ∈ to_camera_frame verts (lookAtId d e a).1 (lookAtId d e a).2 ∧
      p.z = 0 ∧
      fov_divisor load_intrinsics_K p = 0 ∧
      get_dist_mask p 1 10 = false := by
  refine ⟨[⟨5, 5, 0⟩], 0, 0, 0, ⟨5, 5, 0⟩, ?_, rfl, ?_, ?_⟩
  · have : to_camera_frame [⟨5, 5, 0⟩] (lookAtId 0 0 0).1 (lookAtId 0 0 0).2 =
        [⟨5, 5, 0⟩] := by
      norm_num [to_camera_frame, lookAtId, idMat3, Mat3.transpose, Mat3.mulVec, Vec3.sub]
    rw [this]
    exact List.mem_singleton.mpr rfl
  · norm_num [fov_divisor, Mat3.mulVec, load_intrinsics_K]
  · norm_num [get_dist_mask]

/-- C7: narrowing the depth band can only lose points: if `lo ≤ lo'` and
`hi' ≤ hi`, the count of points passing both masks under `(lo', hi')` is at
most the count under `(lo, hi)`, for every look-at transform, pose and
point cloud. -/
theorem combined_count_monotone_in_depth_band (lookAt : LookAt) (d e a : ℚ)
    (verts : List Vec3) (lo hi lo' hi' : ℚ)
    (h1 : lo ≤ lo') (h2 : hi' ≤ hi) :
    rewards_from_pose lookAt d e a verts lo' hi' ≤
      rewards_from_pose lookAt d e a verts lo hi := by
  have key := countP_le_countP
    (l := to_camera_frame verts (lookAt d e a).1 (lookAt d e a).2)
    (p := fun p => combined_mask p lo' hi' img_height img_width load_intrinsics_K)
    (q := fun p => combined_mask p lo hi img_height img_width load_intrinsics_K) ?_
  · show (((to_camera_frame verts (lookAt d e a).1 (lookAt d e a).2).countP fun p =>
        combined_mask p lo' hi' img_height img_width load_intrinsics_K : ℕ) : ℚ) ≤
      (((to_camera_frame verts (lookAt d e a).1 (lookAt d e a).2).countP fun p =>
        combined_mask p lo hi img_height img_width load_intrinsics_K : ℕ) : ℚ)
    exact_mod_cast key
  · intro p _ hp
    simp only [combined_mask, Bool.and_eq_true] at hp ⊢
    obtain ⟨hd, hf⟩ := hp
    obtain ⟨hd1, hd2⟩ := (get_dist_mask_true_iff p lo' hi').mp hd
    exact ⟨(get_dist_mask_true_iff p lo hi).mpr ⟨by linarith, by linarith⟩, hf⟩

/-- Concrete instance of C7: the band `(2, 5)` inside `(1, 10)`. -/
theorem combined_count_monotone_in_depth_band_witness :
    (1 : ℚ) ≤ 2 ∧ (5 : ℚ) ≤ 10 ∧
    rewards_from_pose lookAtId 0 0 0 [⟨0, 0, 6⟩] 2 5 ≤
      rewards_from_pose lookAtId 0 0 0 [⟨0, 0, 6⟩] 1 10 :=
  ⟨by norm_num, by norm_num,
   combined_count_monotone_in_depth_band lookAtId 0 0 0 [⟨0, 0, 6⟩] 1 10 2 5
     (by norm_num) (by norm_num)⟩

/-- C4: `Model.forward`'s loss is `1 / (reward + eps)` with `eps = 1e-6`;
the denominator is never zero and the loss is positive (hence finite) even
when the reward is zero. -/
theorem model_loss_reciprocal_epsilon (lookAt : LookAt) (m : Model) :
    (Model.forward lookAt m).2 =
      1 / ((frustumVisForward lookAt m.dist m.elev m.azim m.points delta_default).1
            + Model.eps) ∧
    Model.eps = 1e-6 ∧
    (frustumVisForward lookAt m.dist m.elev m.azim m.points delta_default).1
      + Model.eps ≠ 0 ∧
    0 < (Model.forward lookAt m).2 := by
  have h0 : 0 ≤ (frustumVisForward lookAt m.dist m.elev m.azim m.points delta_default).1 :=
    Nat.cast_nonneg _
  have heps : (0 : ℚ) < Model.eps := by norm_num [Model.eps]
  have hden : 0 < (frustumVisForward lookAt m.dist m.elev m.azim m.points delta_default).1
      + Model.eps := by linarith
  exact ⟨rfl, rfl, ne_of_gt hden, one_div_pos.mpr hden⟩

/-- C6: the loss of `Model.forward` is always driven by the reward over the
fixed band `(1.0, 10.0)` (the defaults of `rewards_from_pose`, which the
estimator never overrides), whatever clip limits the model was configured
with; and on a concrete two-point cloud with configured limits `(1, 5)`,
the point at depth 7 is counted in the reward (band `(1, 10)`) but absent
from the returned visible-point set, which is a strict subset of the
counted points. -/
theorem model_reward_band_fixed_visible_band_configured :
    (∀ (lookAt : LookAt) (m : Model),
      (Model.forward lookAt m).2 =
        1 / (rewards_from_pose lookAt m.dist m.elev m.azim m.points 1 10 + Model.eps)) ∧
    ((Model.forward lookAtId ⟨[⟨0, 0, 3⟩, ⟨0, 0, 7⟩], 0, 0, 0, 1, 5⟩).1 = [⟨0, 0, 3⟩] ∧
     rewards_from_pose lookAtId 0 0 0 [⟨0, 0, 3⟩, ⟨0, 0, 7⟩] 1 10 = 2 ∧
     combined_mask ⟨0, 0, 7⟩ 1 10 img_height img_width load_intrinsics_K = true ∧
     (⟨0, 0, 7⟩ : Vec3) ∉
       (Model.forward lookAtId ⟨[⟨0, 0, 3⟩, ⟨0, 0, 7⟩], 0, 0, 0, 1, 5⟩).1) := by
  have hvis : (Model.forward lookAtId ⟨[⟨0, 0, 3⟩, ⟨0, 0, 7⟩], 0, 0, 0, 1, 5⟩).1 =
      [⟨0, 0, 3⟩] := by
    norm_num [Model.forward, to_camera_frame, get_dist_mask, get_fov_mask,
      proj_u, proj_v, fov_divisor, Mat3.mulVec, Mat3.transpose, Vec3.sub, lookAtId,
      idMat3, load_intrinsics_K, img_width, img_height, List.filter]
  refine ⟨fun lookAt m => rfl, hvis, ?_, ?_, ?_⟩
  · norm_num [rewards_from_pose, to_camera_frame, combined_mask, get_dist_mask,
      get_fov_mask, proj_u, proj_v, fov_divisor, Mat3.mulVec, Mat3.transpose,
      Vec3.sub, lookAtId, idMat3, load_intrinsics_K, img_width, img_height,
      List.countP_cons, List.countP_nil]
  · norm_num [combined_mask, get_dist_mask, get_fov_mask, proj_u, proj_v,
      fov_divisor, Mat3.mulVec, load_intrinsics_K, img_width, img_height]
  · rw [hvis]
    simp [Vec3.mk.injEq]

/-- Composition of matrix actions on a vector. -/
theorem mulVec_mulM (A B : Mat3) (v : Vec3) :
    Mat3.mulVec (Mat3.mulM A B) v = Mat3.mulVec A (Mat3.mulVec B v) := by
  cases A; cases B; cases v
  simp only [Mat3.mulM, Mat3.mulVec, Vec3.mk.injEq]
  exact ⟨by ring, by ring, by ring⟩

/-- The identity matrix acts as the identity. -/
theorem mulVec_id (v : Vec3) : Mat3.mulVec idMat3 v = v := by
  cases v
  simp [Mat3.mulVec, idMat3]

/-- C8: for an orthonormal rotation `R` and any translation `T`, mapping a
cloud with `to_camera_frame` (subtract `T`, multiply by `Rᵀ`) and then with
the inverse transform (multiply by `R`, add `T`) reproduces every original
point exactly, and the transform preserves cardinality.  Both functions are
pure Lean functions, so no external state is involved. -/
theorem to_camera_frame_roundtrip (verts : List Vec3) (R : Mat3) (T : Vec3)
    (h : Mat3.orthonormal R) :
    from_camera_frame (to_camera_frame verts R T) R T = verts ∧
    (to_camera_frame verts R T).length = verts.length := by
  have hpt : ∀ p : Vec3,
      Vec3.add (Mat3.mulVec R (Mat3.mulVec (Mat3.transpose R) (Vec3.sub p T))) T = p := by
    intro p
    rw [← mulVec_mulM, h.2, mulVec_id]
    cases p; cases T
    simp [Vec3.add, Vec3.sub]
  constructor
  · rw [to_camera_frame, from_camera_frame, List.map_map]
    rw [show ((fun q => Vec3.add (Mat3.mulVec R q) T) ∘
        (fun p => Mat3.mulVec (Mat3.transpose R) (Vec3.sub p T))) = id from
      funext fun p => hpt p]
    exact List.map_id verts
  · exact List.length_map _ _

/-- Concrete instance of C8: a 90° rotation about the Z axis and a nonzero
translation round-trip a one-point cloud. -/
theorem to_camera_frame_roundtrip_witness :
    Mat3.orthonormal ⟨0, -1, 0, 1, 0, 0, 0, 0, 1⟩ ∧
    from_camera_frame
      (to_camera_frame [⟨4, 5, 6⟩] ⟨0, -1, 0, 1, 0, 0, 0, 0, 1⟩ ⟨1, 2, 3⟩)
      ⟨0, -1, 0, 1, 0, 0, 0, 0, 1⟩ ⟨1, 2, 3⟩ = [⟨4, 5, 6⟩] ∧
    (to_camera_frame [⟨4, 5, 6⟩] ⟨0, -1, 0, 1, 0, 0, 0, 0, 1⟩ ⟨1, 2, 3⟩).length =
      ([⟨4, 5, 6⟩] : List Vec3).length := by
  have hR : Mat3.orthonormal ⟨0, -1, 0, 1, 0, 0, 0, 0, 1⟩ := by
    constructor <;> norm_num [Mat3.mulM, Mat3.transpose, idMat3, Mat3.mk.injEq]
  exact ⟨hR,
    (to_camera_frame_roundtrip [⟨4, 5, 6⟩] ⟨0, -1, 0, 1, 0, 0, 0, 0, 1⟩ ⟨1, 2, 3⟩ hR).1,
    (to_camera_frame_roundtrip [⟨4, 5, 6⟩] ⟨0, -1, 0, 1, 0, 0, 0, 0, 1⟩ ⟨1, 2, 3⟩ hR).2⟩

/-- C9 (code bug, evaluated at the failing input): with startup overrides
`~pointcloud_topic = "/my_pc"` and `~cam_info_topic = "/my_cam"`, the
instance fields record the overrides, but `rospy.Subscriber` is called with
the constructor defaults `pc_topic` / `cam_info_topic`, so the channels
actually subscribed to differ from the configured override values (while
`__init__` prints `"Subscribed to " + self.pc_topic`, the override). -/
theorem init_subscribes_default_not_override :
    (points_processor_init (some "/my_pc") (some "/my_cam")
        default_pc_topic default_cam_info_topic).pc_topic = "/my_pc" ∧
    (points_processor_init (some "/my_pc") (some "/my_cam")
        default_pc_topic default_cam_info_topic).subscribed_pc_topic = "/output_3d_pc" ∧
    (points_processor_init (some "/my_pc") (some "/my_cam")
        default_pc_topic default_cam_info_topic).subscribed_pc_topic ≠
      (points_processor_init (some "/my_pc") (some "/my_cam")
        default_pc_topic default_cam_info_topic).pc_topic ∧
    (points_processor_init (some "/my_pc") (some "/my_cam")
        default_pc_topic default_cam_info_topic).cam_info_topic = "/my_cam" ∧
    (points_processor_init (some "/my_pc") (some "/my_cam")
        default_pc_topic default_cam_info_topic).subscribed_cam_info_topic =
      "/viz/camera_0/camera_info" ∧
    (points_processor_init (some "/my_pc") (some "/my_cam")
        default_pc_topic default_cam_info_topic).subscribed_cam_info_topic ≠
      (points_processor_init (some "/my_pc") (some "/my_cam")
        default_pc_topic default_cam_info_topic).cam_info_topic := by
  refine ⟨rfl, rfl, ?_, rfl, rfl, ?_⟩ <;>
    simp [points_processor_init, rospy_get_param, default_pc_topic, default_cam_info_topic]

/-- C10: `cam_info_callback` runs the projection-and-publish step (`run`)
exactly when the point-cloud frame has been populated, it never clears that
frame, and `pc_callback` populates it; hence a camera-info update arriving
before any point cloud is skipped (the callback still returns a valid
updated state, so there is no crash), and processing happens once a point
cloud has arrived. -/
theorem cam_info_skips_until_pointcloud :
    (∀ (s : ProcState) (msg : CameraInfoMsg),
      (cam_info_callback s msg).2 = s.pc_frame.isSome) ∧
    (∀ (s : ProcState) (msg : CameraInfoMsg),
      (cam_info_callback s msg).1.pc_frame = s.pc_frame) ∧
    (∀ (s : ProcState) (msg : PointCloud2Msg),
      (pc_callback s msg).pc_frame.isSome = true) := by
  refine ⟨fun s msg => ?_, fun s msg => ?_, fun s msg => rfl⟩ <;>
    by_cases h : s.pc_frame.isSome <;> simp [cam_info_callback, h]
